import Mathlib

/-!
Verification of `keyword_extractor.py` (srstevenson/keyword-extractor).

The repository wraps a linguistic pipeline (spaCy) and a TF-IDF scorer
(scikit-learn) into a two-stage keyword extractor.  We embed the repository's
own code shallowly: the external linguistic pipeline is a parameter
`nlp : String → List Sentence` (a sentence segmenter producing tokens carrying
the attributes the code reads: `is_stop`, `is_punct`, `lemma_`), and the
TF-IDF scorer is modelled concretely at the level of detail the code relies
on (a fitted vocabulary of at most `max_features` terms selected from the
corpus it is fitted on).  All definitions are executable.
-/

set_option linter.unusedVariables false

/-- A spaCy token, restricted to the attributes the repository reads. -/
structure Token where
  is_stop : Bool
  is_punct : Bool
  lemma_ : String
deriving DecidableEq, Repr

/-- A sentence produced by the linguistic pipeline: its raw text (`.text` in
spaCy) and its tokens. -/
structure Sentence where
  text : String
  tokens : List Token
deriving DecidableEq, Repr

/-- `Document`: a document with a name and text content
(`keyword_extractor.py`, `Document`). -/
structure Document where
  name : String
  text : String
deriving DecidableEq, Repr

/-- `KeywordMetadata`: metadata for occurrences of an extracted keyword
(`keyword_extractor.py`, `KeywordMetadata`).  `document_names` is a Python
`set`, modelled as a `Finset`; `sentences` is an ordered list. -/
structure KeywordMetadata where
  keyword : String
  occurrences : Nat
  document_names : Finset String
  sentences : List String
deriving DecidableEq

/-- `KeywordSummary`: summary of extracted keywords
(`keyword_extractor.py`, `KeywordSummary`).  The Python `dict` is modelled by
its lookup function. -/
structure KeywordSummary where
  data : String → Option KeywordMetadata

/-- Python's `str.lower`, applied character by character (what
`String.toLower` computes, written by structural recursion over the
character list so that it evaluates by kernel reduction). -/
def strLower (s : String) : String := ⟨s.data.map Char.toLower⟩

/-- `KeywordExtractor._lemmatise_and_remove_stops`: lemmatise tokens whilst
dropping stop words and punctuation (`for token in text: if not token.is_stop
and not token.is_punct: yield token.lemma_.lower()`). -/
def lemmatiseAndRemoveStops : List Token → List String
  | [] => []
  | t :: ts =>
    if !t.is_stop && !t.is_punct then
      strLower t.lemma_ :: lemmatiseAndRemoveStops ts
    else
      lemmatiseAndRemoveStops ts

/-- The sentence-strings `fit` feeds to the TF-IDF scorer: for every sentence
of every document, the surviving normalised tokens joined with single spaces
(`" ".join(token for token in sentence)` over
`self._lemmatise_and_remove_stops(sentence) for document in
self.language_model.pipe(texts) for sentence in document.sents`). -/
def sentenceStrings (nlp : String → List Sentence) (docs : List Document) :
    List String :=
  docs.flatMap fun d =>
    (nlp d.text).map fun s => " ".intercalate (lemmatiseAndRemoveStops s.tokens)

/-- Splitting a string at every space character (the semantics of
`String.splitOn " "`, written by structural recursion over the character list
so that it evaluates by kernel reduction). -/
def splitSpaceAux : List Char → List Char → List (List Char)
  | [], acc => [acc.reverse]
  | c :: cs, acc =>
    if c = ' ' then acc.reverse :: splitSpaceAux cs []
    else splitSpaceAux cs (c :: acc)

/-- Split a string at space characters. -/
def splitOnSpace (s : String) : List String :=
  (splitSpaceAux s.data []).map fun l => ⟨l⟩

/-- The tokenizer of scikit-learn's `TfidfVectorizer` with default settings,
applied to the space-joined sentence-strings the code produces: the default
`token_pattern` keeps maximal runs of at least two word characters, so on a
space-joined list of already lower-cased lemmas it keeps the tokens of length
at least two. -/
def sklearnTokenize (s : String) : List String :=
  (splitOnSpace s).filter fun t => 2 ≤ t.length

/-- Insertion into a list sorted by the boolean relation `le`. -/
def insertSorted (le : String → String → Bool) (x : String) :
    List String → List String
  | [] => [x]
  | y :: ys => if le x y then x :: y :: ys else y :: insertSorted le x ys

/-- Insertion sort by the boolean relation `le`. -/
def sortByRel (le : String → String → Bool) (l : List String) : List String :=
  l.foldr (insertSorted le) []

/-- Feature ranking used by scikit-learn's `max_features` selection: higher
corpus term frequency first, ties broken alphabetically. -/
def featureRankLe (cnt : String → Nat) (a b : String) : Bool :=
  decide (cnt b < cnt a) || (decide (cnt a = cnt b) && decide (a ≤ b))

/-- The vocabulary `TfidfVectorizer(max_features=n).fit(corpus)` builds: the
distinct tokens of the corpus, the top `n` of them by term frequency across
the corpus, returned alphabetically sorted as `get_feature_names_out` does. -/
def tfidfVocabulary (n : Nat) (corpus : List String) : List String :=
  let toks := corpus.flatMap sklearnTokenize
  let ranked := sortByRel (featureRankLe fun t => toks.count t) toks.dedup
  sortByRel (fun a b => decide (a ≤ b)) (ranked.take n)

/-- The fitted state of scikit-learn's `TfidfVectorizer`: its `max_features`
parameter, the corpus it was last fitted on, and the fitted vocabulary. -/
structure TfidfState where
  max_features : Nat
  fitCorpus : List String
  vocabulary : List String
deriving DecidableEq

/-- `TfidfVectorizer.fit` on a list of strings. -/
def TfidfState.fit (st : TfidfState) (corpus : List String) : TfidfState :=
  { max_features := st.max_features
    fitCorpus := corpus
    vocabulary := tfidfVocabulary st.max_features corpus }

/-- `TfidfVectorizer.fit`, with the error scikit-learn raises when the corpus
yields an empty vocabulary (`ValueError: empty vocabulary; perhaps the
documents only contain stop words`). -/
def TfidfState.fitE (st : TfidfState) (corpus : List String) :
    Except String TfidfState :=
  if corpus.flatMap sklearnTokenize = [] then
    Except.error "empty vocabulary; perhaps the documents only contain stop words"
  else
    Except.ok (st.fit corpus)

/-- `KeywordExtractor`: the extractor's state.  `language_model` is the spaCy
pipeline loaded in `__init__`, `tfidf` the `TfidfVectorizer(max_features=
n_keywords)`, `keywords` the fitted keyword set (`self.keywords: set[str]`). -/
structure KeywordExtractor where
  language_model : String → List Sentence
  tfidf : TfidfState
  keywords : Finset String

/-- `KeywordExtractor.__init__(n_keywords)`: a fresh extractor with the given
language model, an unfitted `TfidfVectorizer(max_features=n_keywords)` and an
empty keyword set. -/
def KeywordExtractor.init (nlp : String → List Sentence) (n_keywords : Nat) :
    KeywordExtractor :=
  { language_model := nlp
    tfidf := { max_features := n_keywords, fitCorpus := [], vocabulary := [] }
    keywords := ∅ }

/-- `KeywordExtractor.fit`: fit the TF-IDF scorer on the normalised
sentence-strings of the documents, add the resulting feature names to
`self.keywords`, and return `list(self.keywords)`. -/
def KeywordExtractor.fit (ex : KeywordExtractor) (docs : List Document) :
    KeywordExtractor × List String :=
  let st := ex.tfidf.fit (sentenceStrings ex.language_model docs)
  let ex' : KeywordExtractor :=
    { language_model := ex.language_model
      tfidf := st
      keywords := ex.keywords ∪ st.vocabulary.toFinset }
  (ex', ex'.keywords.sort (· ≤ ·))

/-- `KeywordExtractor.fit` with the TF-IDF scorer's error propagated
unchanged: the method has no `try`/`except`, so `TfidfVectorizer.fit`'s
exception reaches the caller as raised. -/
def KeywordExtractor.fitE (ex : KeywordExtractor) (docs : List Document) :
    Except String (KeywordExtractor × List String) :=
  (ex.tfidf.fitE (sentenceStrings ex.language_model docs)).map fun st =>
    let ex' : KeywordExtractor :=
      { language_model := ex.language_model
        tfidf := st
        keywords := ex.keywords ∪ st.vocabulary.toFinset }
    (ex', ex'.keywords.sort (· ≤ ·))

/-- Whether a sentence contains the keyword after normalisation: the code
computes `tokens = set(self._lemmatise_and_remove_stops(sentence))` and tests
`keyword not in tokens`. -/
def sentenceHasKeyword (k : String) (s : Sentence) : Bool :=
  decide (k ∈ lemmatiseAndRemoveStops s.tokens)

/-- The body of `transform`'s sentence loop: on a sentence containing the
keyword, increment `occurrences`, add the document name, append the sentence
text; otherwise `continue`. -/
def sentStep (k dname : String) (md : KeywordMetadata) (s : Sentence) :
    KeywordMetadata :=
  if sentenceHasKeyword k s then
    { keyword := md.keyword
      occurrences := md.occurrences + 1
      document_names := insert dname md.document_names
      sentences := md.sentences ++ [s.text] }
  else md

/-- The body of `transform`'s document loop: run the sentence loop over
`self.language_model(document.text).sents`. -/
def docStep (nlp : String → List Sentence) (k : String)
    (md : KeywordMetadata) (d : Document) : KeywordMetadata :=
  (nlp d.text).foldl (sentStep k d.name) md

/-- The metadata `transform` accumulates for one keyword, starting from
`KeywordMetadata(keyword)` (occurrences 0, empty name set, empty list). -/
def transformMeta (nlp : String → List Sentence) (k : String)
    (docs : List Document) : KeywordMetadata :=
  docs.foldl (docStep nlp k) ⟨k, 0, ∅, []⟩

/-- `KeywordExtractor.transform`: for each fitted keyword, scan the documents
with the language model and collect the metadata; the summary dict has exactly
the fitted keywords as keys. -/
def KeywordExtractor.transform (ex : KeywordExtractor)
    (docs : List Document) : KeywordSummary :=
  ⟨fun k =>
    if k ∈ ex.keywords then some (transformMeta ex.language_model k docs)
    else none⟩

/-- `KeywordExtractor.fit_transform`: `self.fit(documents)` then
`return self.transform(documents)`; the pair records the mutated extractor. -/
def KeywordExtractor.fit_transform (ex : KeywordExtractor)
    (docs : List Document) : KeywordExtractor × KeywordSummary :=
  let ex' := (ex.fit docs).1
  (ex', ex'.transform docs)

/-- `KeywordExtractor.fit_transform` with the TF-IDF error propagated
unchanged through `fit`. -/
def KeywordExtractor.fit_transformE (ex : KeywordExtractor)
    (docs : List Document) : Except String (KeywordExtractor × KeywordSummary) :=
  (ex.fitE docs).map fun p => (p.1, p.1.transform docs)

/-- The total number of occurrences of the keyword across all documents,
counting every occurrence of the normalised token, including repeats inside a
single sentence.  This is the tally the spec's reading of "how often it
occurs" (and a tally of the statistical library's transform counts) would
give. -/
def totalOccurrences (nlp : String → List Sentence) (k : String)
    (docs : List Document) : Nat :=
  ((docs.flatMap fun d => nlp d.text).flatMap fun s =>
    lemmatiseAndRemoveStops s.tokens).count k

/-- `transform` when `documents` is a single-pass iterator: the inner document
loop consumes the iterator and returns what remains of it (always nothing). -/
def metaConsume (nlp : String → List Sentence) (k : String) :
    List Document → KeywordMetadata → KeywordMetadata × List Document
  | [], md => (md, [])
  | d :: ds, md => metaConsume nlp k ds (docStep nlp k md d)

/-- `transform` over a single-pass iterator of documents: the keywords are
processed in some order `ks`, and each keyword's document loop consumes
whatever is left of the iterator. -/
def transformSinglePass (nlp : String → List Sentence) :
    List String → List Document → List (String × KeywordMetadata)
  | [], _ => []
  | k :: ks, it =>
    let r := metaConsume nlp k it ⟨k, 0, ∅, []⟩
    (k, r.1) :: transformSinglePass nlp ks r.2


/-- The names of the documents whose text has a sentence containing the
keyword after normalisation, as a set. -/
def docsContaining (nlp : String → List Sentence) (k : String) :
    List Document → Finset String
  | [] => ∅
  | d :: ds =>
    if (nlp d.text).any (sentenceHasKeyword k) then
      insert d.name (docsContaining nlp k ds)
    else docsContaining nlp k ds

/-- A content token for the toy language model: not a stop word, not
punctuation, its own lower-case lemma. -/
def tok (w : String) : Token := { is_stop := false, is_punct := false, lemma_ := w }

/-- A toy language model, used to evaluate the development on concrete
inputs: it assigns fixed token analyses to a handful of fixed texts. -/
def toyNlp (text : String) : List Sentence :=
  if text = "aa aa." then
    [{ text := "aa aa.", tokens := [tok "aa", tok "aa"] }]
  else if text = "bb bb bb." then
    [{ text := "bb bb bb.", tokens := [tok "bb", tok "bb", tok "bb"] }]
  else if text = "aa." then
    [{ text := "aa.", tokens := [tok "aa"] }]
  else if text = "bb." then
    [{ text := "bb.", tokens := [tok "bb"] }]
  else []

/-- A toy document whose single sentence contains the token `aa` twice. -/
def docA : Document := { name := "d1", text := "aa aa." }

/-- A toy document whose single sentence contains the token `bb` thrice. -/
def docB : Document := { name := "d2", text := "bb bb bb." }

/-- A fitted toy extractor whose keyword set is `{aa}`. -/
def exW : KeywordExtractor :=
  { language_model := toyNlp
    tfidf := { max_features := 1, fitCorpus := [], vocabulary := [] }
    keywords := {"aa"} }

/-- A toy extractor with the same keywords and language model as `exW` but a
different fitted TF-IDF state. -/
def exW2 : KeywordExtractor :=
  { language_model := toyNlp
    tfidf := { max_features := 1, fitCorpus := ["zz zz"], vocabulary := ["zz"] }
    keywords := {"aa"} }

/-- A fitted toy extractor whose keyword set is `{aa, bb}`. -/
def exWB : KeywordExtractor :=
  { language_model := toyNlp
    tfidf := { max_features := 2, fitCorpus := [], vocabulary := [] }
    keywords := {"aa", "bb"} }

/-- Modelled from the spec: the per-keyword occurrence tally that obtaining
statistics "via the fitted TF-IDF scorer's transform call" and tallying them
would give.  The scorer's transform counts every occurrence of each
vocabulary term in each pseudo-document handed to the library, so the tally
for a keyword is its total term count over the normalised sentence-strings
of the corpus. -/
def libraryTransformTally (nlp : String → List Sentence) (k : String)
    (docs : List Document) : Nat :=
  ((sentenceStrings nlp docs).flatMap sklearnTokenize).count k

@[ext] lemma KeywordMetadata.ext {a b : KeywordMetadata}
    (h1 : a.keyword = b.keyword) (h2 : a.occurrences = b.occurrences)
    (h3 : a.document_names = b.document_names)
    (h4 : a.sentences = b.sentences) : a = b := by
  cases a; cases b; simp_all

lemma foldl_sentStep_char (k dn : String) (ss : List Sentence)
    (md : KeywordMetadata) :
    ss.foldl (sentStep k dn) md =
      { keyword := md.keyword
        occurrences := md.occurrences + ss.countP (sentenceHasKeyword k)
        document_names :=
          if ss.any (sentenceHasKeyword k) then insert dn md.document_names
          else md.document_names
        sentences :=
          md.sentences ++ (ss.filter (sentenceHasKeyword k)).map Sentence.text } := by
  induction ss generalizing md with
  | nil => simp
  | cons s ss ih =>
    rw [List.foldl_cons, ih]
    by_cases h : sentenceHasKeyword k s
    · simp only [sentStep, h, if_true]
      refine KeywordMetadata.ext rfl ?_ ?_ ?_
      · simp only [List.countP_cons, h, if_true]
        omega
      · simp only [List.any_cons, h, Bool.true_or, if_true]
        split <;> simp [Finset.insert_idem]
      · simp [List.filter_cons, h]
    · simp [sentStep, h, List.countP_cons, List.filter_cons]

lemma foldl_docStep_char (nlp : String → List Sentence) (k : String)
    (docs : List Document) (md : KeywordMetadata) :
    docs.foldl (docStep nlp k) md =
      { keyword := md.keyword
        occurrences := md.occurrences +
          ((docs.flatMap fun d => nlp d.text).countP (sentenceHasKeyword k))
        document_names := md.document_names ∪ docsContaining nlp k docs
        sentences := md.sentences ++ docs.flatMap fun d =>
          ((nlp d.text).filter (sentenceHasKeyword k)).map Sentence.text } := by
  induction docs generalizing md with
  | nil => simp [docsContaining]
  | cons d ds ih =>
    rw [List.foldl_cons]
    have hd : docStep nlp k md d = (nlp d.text).foldl (sentStep k d.name) md := rfl
    rw [hd, foldl_sentStep_char, ih]
    refine KeywordMetadata.ext rfl ?_ ?_ ?_
    · simp only [List.flatMap_cons, List.countP_append]
      omega
    · simp only [docsContaining]
      by_cases h : (nlp d.text).any (sentenceHasKeyword k)
      · simp [h, Finset.insert_union, Finset.union_insert]
      · simp [h]
    · simp [List.flatMap_cons]

lemma transformMeta_char (nlp : String → List Sentence) (k : String)
    (docs : List Document) :
    transformMeta nlp k docs =
      { keyword := k
        occurrences := (docs.flatMap fun d => nlp d.text).countP (sentenceHasKeyword k)
        document_names := docsContaining nlp k docs
        sentences := docs.flatMap fun d =>
          ((nlp d.text).filter (sentenceHasKeyword k)).map Sentence.text } := by
  rw [transformMeta, foldl_docStep_char]
  simp

lemma mem_docsContaining {nlp : String → List Sentence} {k : String}
    {docs : List Document} {x : String} :
    x ∈ docsContaining nlp k docs ↔
      ∃ d ∈ docs, (nlp d.text).any (sentenceHasKeyword k) ∧ d.name = x := by
  induction docs with
  | nil => simp [docsContaining]
  | cons d ds ih =>
    simp only [docsContaining]
    by_cases h : (nlp d.text).any (sentenceHasKeyword k)
    · rw [if_pos h]
      simp only [Finset.mem_insert, ih, List.mem_cons]
      constructor
      · rintro (rfl | ⟨d', hd', hany, rfl⟩)
        · exact ⟨d, Or.inl rfl, h, rfl⟩
        · exact ⟨d', Or.inr hd', hany, rfl⟩
      · rintro ⟨d', (rfl | hd'), hany, rfl⟩
        · exact Or.inl rfl
        · exact Or.inr ⟨d', hd', hany, rfl⟩
    · rw [if_neg h]
      simp only [ih, List.mem_cons]
      constructor
      · rintro ⟨d', hd', hany, rfl⟩
        exact ⟨d', Or.inr hd', hany, rfl⟩
      · rintro ⟨d', (rfl | hd'), hany, rfl⟩
        · exact absurd hany h
        · exact ⟨d', hd', hany, rfl⟩

lemma length_insertSorted (le : String → String → Bool) (x : String)
    (l : List String) : (insertSorted le x l).length = l.length + 1 := by
  induction l with
  | nil => rfl
  | cons y ys ih =>
    simp only [insertSorted]
    split
    · simp
    · simp [ih]

lemma length_sortByRel (le : String → String → Bool) (l : List String) :
    (sortByRel le l).length = l.length := by
  induction l with
  | nil => rfl
  | cons x xs ih =>
    simp only [sortByRel, List.foldr_cons] at *
    rw [length_insertSorted, ih, List.length_cons]

lemma length_tfidfVocabulary (n : Nat) (corpus : List String) :
    (tfidfVocabulary n corpus).length ≤ n := by
  unfold tfidfVocabulary
  rw [length_sortByRel, List.length_take]
  exact min_le_left _ _

lemma metaConsume_snd (nlp : String → List Sentence) (k : String)
    (it : List Document) (md : KeywordMetadata) :
    (metaConsume nlp k it md).2 = [] := by
  induction it generalizing md with
  | nil => rfl
  | cons d ds ih => simp [metaConsume, ih]

lemma metaConsume_fst (nlp : String → List Sentence) (k : String)
    (it : List Document) (md : KeywordMetadata) :
    (metaConsume nlp k it md).1 = it.foldl (docStep nlp k) md := by
  induction it generalizing md with
  | nil => rfl
  | cons d ds ih => simp [metaConsume, ih]

lemma transformSinglePass_nil_iterator (nlp : String → List Sentence)
    (ks : List String) :
    transformSinglePass nlp ks [] =
      ks.map fun k => (k, (⟨k, 0, ∅, []⟩ : KeywordMetadata)) := by
  induction ks with
  | nil => rfl
  | cons k ks ih => simp [transformSinglePass, metaConsume, ih]

lemma sentenceHasKeyword_true_iff {k : String} {s : Sentence} :
    sentenceHasKeyword k s = true ↔ k ∈ lemmatiseAndRemoveStops s.tokens := by
  simp [sentenceHasKeyword]

lemma transform_data_eq {ex : KeywordExtractor} {docs : List Document}
    {k : String} {md : KeywordMetadata}
    (h : (ex.transform docs).data k = some md) :
    md = transformMeta ex.language_model k docs := by
  have h' : (if k ∈ ex.keywords then
      some (transformMeta ex.language_model k docs) else none) = some md := h
  by_cases hk : k ∈ ex.keywords
  · rw [if_pos hk] at h'
    injection h' with h2
    exact h2.symm
  · rw [if_neg hk] at h'
    cases h'

lemma sentenceStrings_eq (nlp : String → List Sentence) (docs : List Document) :
    sentenceStrings nlp docs =
      (docs.flatMap fun d => nlp d.text).map fun s =>
        " ".intercalate (lemmatiseAndRemoveStops s.tokens) := by
  induction docs with
  | nil => rfl
  | cons d ds ih =>
    simp only [sentenceStrings, List.flatMap_cons, List.map_append] at ih ⊢
    rw [ih]

/-- Claim C1: for every fitted extractor and every list of input documents,
`KeywordExtractor.transform` returns a summary in which each fitted keyword's
metadata records exactly the names of the documents that contain that keyword
(a document contains it when some sentence, after tokenisation, stop-word and
punctuation removal, lemmatisation and lower-casing, contains the keyword)
and exactly the texts of the sentences in which the keyword appears, in
document-then-sentence order. -/
theorem claim_C1 (ex : KeywordExtractor) (docs : List Document) (k : String)
    (md : KeywordMetadata)
    (h : (ex.transform docs).data k = some md) :
    (∀ x, x ∈ md.document_names ↔
        ∃ d ∈ docs, (∃ s ∈ ex.language_model d.text,
          k ∈ lemmatiseAndRemoveStops s.tokens) ∧ d.name = x)
    ∧ md.sentences = docs.flatMap fun d =>
        ((ex.language_model d.text).filter (sentenceHasKeyword k)).map
          Sentence.text := by
  rw [transform_data_eq h, transformMeta_char]
  constructor
  · intro x
    simp only [mem_docsContaining, List.any_eq_true, sentenceHasKeyword_true_iff]
  · rfl

/-- Witness for claim C1: the toy extractor with keyword `aa` on a document
whose one sentence reads `aa aa.`. -/
theorem claim_C1_witness :
    (exW.transform [docA]).data "aa" = some (transformMeta toyNlp "aa" [docA])
    ∧ ((∀ x, x ∈ (transformMeta toyNlp "aa" [docA]).document_names ↔
          ∃ d ∈ [docA], (∃ s ∈ toyNlp d.text,
            "aa" ∈ lemmatiseAndRemoveStops s.tokens) ∧ d.name = x)
       ∧ (transformMeta toyNlp "aa" [docA]).sentences = [docA].flatMap fun d =>
           ((toyNlp d.text).filter (sentenceHasKeyword "aa")).map
             Sentence.text) :=
  ⟨rfl, claim_C1 exW [docA] "aa" (transformMeta toyNlp "aa" [docA]) rfl⟩

/-- Claim C2, as stated, is false: `transform` increments the count once per
sentence containing the keyword, so a keyword occurring twice inside one
sentence is reported with count 1, not 2.  Concretely: keyword `aa` on a
document whose single sentence is `aa aa.`. -/
theorem claim_C2_counterexample :
    ¬ ∀ (ex : KeywordExtractor) (docs : List Document) (k : String)
        (md : KeywordMetadata),
        (ex.transform docs).data k = some md →
        md.occurrences = totalOccurrences ex.language_model k docs := by
  intro hall
  have h := hall exW [docA] "aa" (transformMeta toyNlp "aa" [docA]) rfl
  have h1 : (transformMeta toyNlp "aa" [docA]).occurrences = 1 := by decide
  have h2 : totalOccurrences exW.language_model "aa" [docA] = 2 := by decide
  rw [h1, h2] at h
  exact absurd h (by decide)

/-- Claim C2 amended: the occurrence count `transform` reports for a keyword
is the number of sentences across all documents (in order, each sentence
counted at most once however often the keyword repeats inside it) whose
normalised tokens contain the keyword. -/
theorem claim_C2_amended (ex : KeywordExtractor) (docs : List Document)
    (k : String) (md : KeywordMetadata)
    (h : (ex.transform docs).data k = some md) :
    md.occurrences =
      (docs.flatMap fun d => ex.language_model d.text).countP
        (sentenceHasKeyword k) := by
  rw [transform_data_eq h, transformMeta_char]

/-- Witness for the amended claim C2: keyword `aa`, one document with one
sentence containing `aa` twice; the count is the sentence count. -/
theorem claim_C2_witness :
    (exW.transform [docA]).data "aa" = some (transformMeta toyNlp "aa" [docA])
    ∧ (transformMeta toyNlp "aa" [docA]).occurrences =
        ([docA].flatMap fun d => toyNlp d.text).countP
          (sentenceHasKeyword "aa") :=
  ⟨rfl, claim_C2_amended exW [docA] "aa" (transformMeta toyNlp "aa" [docA]) rfl⟩

/-- Claim C3, as stated, is false: `transform` never calls the fitted TF-IDF
scorer's transform; a tally obtained through the library's transform counts
every term occurrence, while `transform`'s count differs from it.
Concretely: keyword `bb` on a document whose single sentence is
`bb bb bb.` gives count 1, while the library tally is 3. -/
theorem claim_C3_counterexample :
    ¬ ∀ (ex : KeywordExtractor) (docs : List Document) (k : String)
        (md : KeywordMetadata),
        (ex.transform docs).data k = some md →
        md.occurrences = libraryTransformTally ex.language_model k docs := by
  intro hall
  have h := hall exWB [docB] "bb" (transformMeta toyNlp "bb" [docB]) rfl
  have h1 : (transformMeta toyNlp "bb" [docB]).occurrences = 1 := by decide
  have h2 : libraryTransformTally exWB.language_model "bb" [docB] = 3 := by
    decide
  rw [h1, h2] at h
  exact absurd h (by decide)

/-- Claim C3 amended: after fit, `transform` does not consult the fitted
TF-IDF scorer at all; it recomputes statistics by scanning the documents with
the language pipeline directly, so its result depends only on the fitted
keyword set and the language model, not on the fitted TF-IDF state. -/
theorem claim_C3_amended (ex₁ ex₂ : KeywordExtractor) (docs : List Document)
    (hkw : ex₁.keywords = ex₂.keywords)
    (hlm : ex₁.language_model = ex₂.language_model) :
    ex₁.transform docs = ex₂.transform docs := by
  unfold KeywordExtractor.transform
  rw [hkw, hlm]

/-- Witness for the amended claim C3: two extractors with the same keywords
and language model but different fitted TF-IDF states produce the same
summary. -/
theorem claim_C3_witness :
    exW.tfidf ≠ exW2.tfidf
    ∧ exW.keywords = exW2.keywords
    ∧ exW.language_model = exW2.language_model
    ∧ exW.transform [docA] = exW2.transform [docA] :=
  ⟨by decide, rfl, rfl, claim_C3_amended exW exW2 [docA] rfl rfl⟩

/-- Claim C4: `fit` fits the TF-IDF scorer on exactly the collection of
sentence-strings obtained by normalising every sentence of every input
document token by token and joining the survivors with single spaces, and
the resulting vocabulary has at most `n_keywords` (= `max_features`)
top-ranked terms. -/
theorem claim_C4 (ex : KeywordExtractor) (docs : List Document) :
    (ex.fit docs).1.tfidf.fitCorpus =
      ((docs.flatMap fun d => ex.language_model d.text).map fun s =>
        " ".intercalate (lemmatiseAndRemoveStops s.tokens))
    ∧ (ex.fit docs).1.tfidf.vocabulary =
        tfidfVocabulary ex.tfidf.max_features
          (sentenceStrings ex.language_model docs)
    ∧ (ex.fit docs).1.tfidf.vocabulary.length ≤ ex.tfidf.max_features
    ∧ ∀ (nlp : String → List Sentence) (n : Nat) (ds : List Document),
        ((KeywordExtractor.init nlp n).fit ds).1.tfidf.vocabulary.length ≤ n := by
  refine ⟨?_, rfl, ?_, ?_⟩
  · exact sentenceStrings_eq ex.language_model docs
  · exact length_tfidfVocabulary _ _
  · intro nlp n ds
    exact length_tfidfVocabulary _ _

/-- Claim C5: the key set of the summary `transform` returns is exactly the
fitted keyword set, and a fitted keyword absent from the corpus gets count 0,
empty document set and empty sentence list. -/
theorem claim_C5 (ex : KeywordExtractor) (docs : List Document) :
    (∀ k, ((ex.transform docs).data k).isSome ↔ k ∈ ex.keywords)
    ∧ (∀ k, k ∈ ex.keywords →
        (∀ d ∈ docs, ∀ s ∈ ex.language_model d.text,
          k ∉ lemmatiseAndRemoveStops s.tokens) →
        (ex.transform docs).data k =
          some { keyword := k, occurrences := 0, document_names := ∅,
                 sentences := [] }) := by
  constructor
  · intro k
    show (if k ∈ ex.keywords then
        some (transformMeta ex.language_model k docs) else none).isSome ↔ _
    by_cases hk : k ∈ ex.keywords <;> simp [hk]
  · intro k hk habs
    show (if k ∈ ex.keywords then
        some (transformMeta ex.language_model k docs) else none) = _
    rw [if_pos hk]
    congr 1
    rw [transformMeta_char]
    refine KeywordMetadata.ext rfl ?_ ?_ ?_
    · apply List.countP_eq_zero.mpr
      intro s hs
      obtain ⟨d, hd, hsd⟩ := List.mem_flatMap.mp hs
      simp only [sentenceHasKeyword_true_iff]
      exact habs d hd s hsd
    · apply Finset.eq_empty_iff_forall_not_mem.mpr
      intro x hx
      obtain ⟨d, hd, hany, _⟩ := mem_docsContaining.mp hx
      obtain ⟨s, hsd, hsk⟩ := List.any_eq_true.mp hany
      exact habs d hd s hsd (sentenceHasKeyword_true_iff.mp hsk)
    · apply List.eq_nil_iff_forall_not_mem.mpr
      intro y hy
      obtain ⟨d, hd, hy'⟩ := List.mem_flatMap.mp hy
      obtain ⟨s, hs, _⟩ := List.mem_map.mp hy'
      have hsf := List.mem_filter.mp hs
      exact habs d hd s hsf.1 (sentenceHasKeyword_true_iff.mp hsf.2)

/-- Witness for claim C5: the extractor fitted with keywords `{aa, bb}` on a
corpus containing only `aa`; `bb` still gets an entry, with empty
statistics. -/
theorem claim_C5_witness :
    ("bb" ∈ exWB.keywords)
    ∧ (∀ d ∈ [docA], ∀ s ∈ toyNlp d.text,
        "bb" ∉ lemmatiseAndRemoveStops s.tokens)
    ∧ (exWB.transform [docA]).data "bb" =
        some { keyword := "bb", occurrences := 0, document_names := ∅,
               sentences := [] } :=
  ⟨by decide, by decide, (claim_C5 exWB [docA]).2 "bb" (by decide) (by decide)⟩

/-- Claim C6: the normalisation step yields, in input order, the lower-cased
lemma of exactly the tokens that are neither stop words nor punctuation. -/
theorem claim_C6 (ts : List Token) :
    lemmatiseAndRemoveStops ts =
      (ts.filter fun t => !t.is_stop && !t.is_punct).map fun t =>
        strLower t.lemma_ := by
  induction ts with
  | nil => rfl
  | cons t ts ih =>
    simp only [lemmatiseAndRemoveStops, List.filter_cons]
    split
    · rw [List.map_cons, ih]
    · exact ih

/-- Claim C7: on a freshly constructed extractor, `fit_transform` returns the
same summary as `fit` followed by `transform` on the same document list with
the same extractor. -/
theorem claim_C7 (nlp : String → List Sentence) (n : Nat)
    (docs : List Document) :
    ((KeywordExtractor.init nlp n).fit_transform docs).2 =
      (((KeywordExtractor.init nlp n).fit docs).1).transform docs := rfl

/-- Claim C8: when `transform`'s documents argument is a single-pass
iterator, the inner loop over documents exhausts it on the first keyword, so
every subsequently processed keyword's metadata is empty (count 0, no
document names, no sentences). -/
theorem claim_C8 (nlp : String → List Sentence) (k : String)
    (ks : List String) (it : List Document) (p : String × KeywordMetadata)
    (hp : p ∈ (transformSinglePass nlp (k :: ks) it).tail) :
    p.2 = { keyword := p.1, occurrences := 0, document_names := ∅,
            sentences := [] } := by
  have htail : (transformSinglePass nlp (k :: ks) it).tail =
      transformSinglePass nlp ks (metaConsume nlp k it ⟨k, 0, ∅, []⟩).2 := rfl
  rw [htail, metaConsume_snd, transformSinglePass_nil_iterator] at hp
  obtain ⟨k', hk', hpk⟩ := List.mem_map.mp hp
  rw [← hpk]

/-- Witness for claim C8: keywords processed in order `aa`, `bb` over a
single-pass iterator holding a document that does contain `bb`; `bb`'s
metadata is nevertheless empty. -/
theorem claim_C8_witness :
    ("bb", ({ keyword := "bb", occurrences := 0, document_names := ∅,
              sentences := [] } : KeywordMetadata))
        ∈ (transformSinglePass toyNlp ["aa", "bb"] [docB]).tail
    ∧ ("bb", ({ keyword := "bb", occurrences := 0, document_names := ∅,
                sentences := [] } : KeywordMetadata)).2
        = { keyword := "bb", occurrences := 0, document_names := ∅,
            sentences := [] } :=
  ⟨by decide, claim_C8 toyNlp "aa" ["bb"] [docB] _ (by decide)⟩

/-- Claim C9: `fit` never removes a previously fitted keyword; after a second
fit the keyword set is the union of both fits' vocabularies; and the list
`fit` returns can have more than `n_keywords` entries. -/
theorem claim_C9 :
    (∀ (ex : KeywordExtractor) (docs : List Document),
        ex.keywords ⊆ (ex.fit docs).1.keywords
        ∧ (ex.fit docs).1.keywords =
            ex.keywords ∪ (tfidfVocabulary ex.tfidf.max_features
              (sentenceStrings ex.language_model docs)).toFinset)
    ∧ (∀ (nlp : String → List Sentence) (n : Nat) (d₁ d₂ : List Document),
        (((KeywordExtractor.init nlp n).fit d₁).1.fit d₂).1.keywords =
          (tfidfVocabulary n (sentenceStrings nlp d₁)).toFinset
            ∪ (tfidfVocabulary n (sentenceStrings nlp d₂)).toFinset)
    ∧ (∃ (nlp : String → List Sentence) (n : Nat) (d₁ d₂ : List Document),
        n < (((KeywordExtractor.init nlp n).fit d₁).1.fit d₂).2.length) := by
  refine ⟨fun ex docs => ⟨Finset.subset_union_left, rfl⟩, ?_, ?_⟩
  · intro nlp n d₁ d₂
    show (∅ ∪ (tfidfVocabulary n (sentenceStrings nlp d₁)).toFinset)
        ∪ (tfidfVocabulary n (sentenceStrings nlp d₂)).toFinset = _
    rw [Finset.empty_union]
  · refine ⟨toyNlp, 1, [docA], [docB], ?_⟩
    have hl : (((KeywordExtractor.init toyNlp 1).fit [docA]).1.fit [docB]).2.length
        = (((KeywordExtractor.init toyNlp 1).fit [docA]).1.fit
            [docB]).1.keywords.card := by
      rw [show (((KeywordExtractor.init toyNlp 1).fit [docA]).1.fit [docB]).2
            = Finset.sort (· ≤ ·)
                ((((KeywordExtractor.init toyNlp 1).fit [docA]).1.fit
                  [docB]).1.keywords) from rfl,
          Finset.length_sort]
    rw [hl]
    decide

/-- Claim C10: no operation catches, retries or converts errors: the error
the TF-IDF scorer raises during fit propagates unchanged through `fit` and
`fit_transform` to the caller. -/
theorem claim_C10 (ex : KeywordExtractor) (docs : List Document) (e : String)
    (h : ex.tfidf.fitE (sentenceStrings ex.language_model docs) =
      Except.error e) :
    ex.fitE docs = Except.error e
    ∧ ex.fit_transformE docs = Except.error e := by
  have h1 : ex.fitE docs = Except.error e := by
    unfold KeywordExtractor.fitE
    rw [h]
    rfl
  refine ⟨h1, ?_⟩
  unfold KeywordExtractor.fit_transformE
  rw [h1]
  rfl

/-- Witness for claim C10: fitting on an empty document list raises the empty
vocabulary error, which reaches the caller unchanged through both `fit` and
`fit_transform`. -/
theorem claim_C10_witness :
    exW.tfidf.fitE (sentenceStrings toyNlp []) =
        Except.error "empty vocabulary; perhaps the documents only contain stop words"
    ∧ (exW.fitE [] =
          Except.error "empty vocabulary; perhaps the documents only contain stop words"
        ∧ exW.fit_transformE [] =
          Except.error "empty vocabulary; perhaps the documents only contain stop words") :=
  ⟨rfl, claim_C10 exW [] _ rfl⟩
